import Mathlib

/-!
Shallow embedding of the appointment slot scheduler of the booking screen
(`src/app/booking/[doctorId].tsx`), the booking commit handler
(`handleBookAppointment` in the same file), and the availability-creation
validation (`handleAdd` in `src/components/AddAvailabilityModal.tsx`).

Conventions of the embedding:

* Times of day are natural numbers of minutes since midnight.  The source
  represents them as millisecond timestamps produced by `parseTime`
  (today's date with the given hour and minute, seconds zeroed); every
  comparison and every step of the slot loop works on timestamps sharing
  that one base date, in whole-minute increments, so subtracting the base
  and dividing by 60000 ms is an exact translation.
* Calendar dates are natural day numbers; instants (the value of
  `new Date()` and the slot start instants built by `setHours`) are
  milliseconds since epoch: the instant of time-of-day `t` on day `d` is
  `d * msPerDay + t * msPerMinute`.
* The Supabase queries are I/O; their row lists are the inputs of the
  embedded functions.  The `appointments` query's filters
  (`.eq('appointment_date', dateString)` and
  `.in('status', ['scheduled', 'confirmed'])`) are part of the computation
  under specification, so the full reservation list is an input and the
  filter is embedded (`bookedSlotsOn`).  The `doctor_availability` query's
  filters (`doctor_id`, `day_of_week`, `is_available`) select the input
  window list, so the windows are taken already filtered, in the order the
  query returns them (the query has no `order` clause).
-/

namespace Health

def msPerMinute : Nat := 60000

def msPerDay : Nat := 86400000

/-- `appointments.status`: `'scheduled' | 'confirmed' | 'completed' |
'cancelled' | 'no_show'` (schema CHECK constraint). -/
inductive ApptStatus where
  | scheduled
  | confirmed
  | completed
  | cancelled
  | no_show
deriving DecidableEq, Repr

/-- A `doctor_availability` row as selected by `fetchAvailableSlots`:
`start_time, end_time, slot_duration`.  `slot_duration` is a nullable
integer column (`integer DEFAULT 30`), hence `Option Nat`. -/
structure Availability where
  start_time : Nat
  end_time : Nat
  slot_duration : Option Nat
deriving DecidableEq, Repr

/-- An `appointments` row: date, boundaries and status. -/
structure Reservation where
  appointment_date : Nat
  start_time : Nat
  end_time : Nat
  status : ApptStatus
deriving DecidableEq, Repr

/-- The `TimeSlot` interface of the booking screen. -/
structure TimeSlot where
  start_time : Nat
  end_time : Nat
  available : Bool
deriving DecidableEq, Repr

instance : Inhabited TimeSlot := ⟨⟨0, 0, false⟩⟩

/-- `const slotDuration = availability.slot_duration || 30;` — JavaScript
`||` replaces both a null and a zero stored duration by the default 30. -/
def effDuration : Option Nat → Nat
  | none => 30
  | some 0 => 30
  | some d => d

/-- Statuses in the `.in('status', ['scheduled', 'confirmed'])` filter of
the booked-slots query. -/
def blocking : ApptStatus → Bool
  | .scheduled => true
  | .confirmed => true
  | _ => false

/-- The `bookedSlots` query result: appointments of the doctor restricted
to `appointment_date = dateString` and a blocking status.  (The
`doctor_id` filter is left implicit: all inputs are rows of one doctor.) -/
def bookedSlotsOn (reservations : List Reservation) (date : Nat) :
    List Reservation :=
  reservations.filter fun r => r.appointment_date == date && blocking r.status

/-- `bookedSlots?.some((booked) => booked.start_time === startTimeStr &&
booked.end_time === endTimeStr)` — string equality of `HH:MM:SS` times is
equality of the encoded times. -/
def isBookedSlot (booked : List Reservation) (s e : Nat) : Bool :=
  booked.any fun b => b.start_time == s && b.end_time == e

/-- The instant `slotDateTime`: a copy of `selectedDate` with
`setHours(hours, minutes, 0, 0)` from the slot's start time. -/
def slotInstant (date t : Nat) : Nat :=
  date * msPerDay + t * msPerMinute

/-- `const isPast = slotDateTime < new Date();` with the clock reading
passed in as `now`. -/
def isPastSlot (date s now : Nat) : Bool :=
  slotInstant date s < now

/-- The `while (currentTime < endTime)` loop of `fetchAvailableSlots`:
step the cursor by the duration, emit the slot only when
`slotEnd <= endTime`.  The JavaScript loop would not terminate for a
duration `D = 0`, but the duration reaching it is always `effDuration`,
which is positive, so the extra `0 < D` guard changes the function on no
reachable input and makes the recursion well founded. -/
def genSlots (D : Nat) (booked : List Reservation) (date now : Nat)
    (cursor stop : Nat) : List TimeSlot :=
  if h : cursor < stop ∧ 0 < D then
    let slotEnd := cursor + D
    (if slotEnd ≤ stop then
      [{ start_time := cursor, end_time := slotEnd,
         available := !isBookedSlot booked cursor slotEnd &&
           !isPastSlot date cursor now }]
    else []) ++ genSlots D booked date now slotEnd stop
  else []
termination_by stop - cursor
decreasing_by
  simp_wf
  omega

/-- One window's contribution to `slots` inside the
`availabilityData?.forEach` body. -/
def windowSlots (booked : List Reservation) (date now : Nat)
    (a : Availability) : List TimeSlot :=
  genSlots (effDuration a.slot_duration) booked date now a.start_time
    a.end_time

/-- The pure core of `fetchAvailableSlots`: filter the blocking
reservations of the date, then walk each availability window in the order
the rows arrive, appending its slots. -/
def fetchAvailableSlots (avails : List Availability)
    (reservations : List Reservation) (date now : Nat) : List TimeSlot :=
  (avails.map (windowSlots (bookedSlotsOn reservations date) date now)).flatten

/-- Closed form of one emitted slot: the `i`-th slot of a window walk that
starts at `cursor` with duration `D`. -/
def mkSlot (D : Nat) (booked : List Reservation) (date now cursor : Nat)
    (i : Nat) : TimeSlot :=
  { start_time := cursor + i * D, end_time := cursor + i * D + D,
    available := !isBookedSlot booked (cursor + i * D) (cursor + i * D + D) &&
      !isPastSlot date (cursor + i * D) now }

/-- Iteration count of the same `while (currentTime < endTime)` loop as
`genSlots`: one unit per loop-body execution, the cursor stepping by the
duration each time.  The `0 < D` guard again only excludes the
nonpositive durations on which the JavaScript loop would never stop. -/
def genIters (D cursor stop : Nat) : Nat :=
  if h : cursor < stop ∧ 0 < D then genIters D (cursor + D) stop + 1 else 0
termination_by stop - cursor
decreasing_by
  simp_wf
  omega

/-- The claim's ordering predicate: start times ascending along the
returned slot list. -/
def sortedByStart (l : List TimeSlot) : Prop :=
  l.Pairwise fun s t => s.start_time ≤ t.start_time

/-- Observable effects of `handleBookAppointment`
(`src/app/booking/[doctorId].tsx`): which alert is raised, whether the OK
button of the success alert navigates away, whether the handler re-runs
`fetchAvailableSlots`, and whether it re-attempts the insert. -/
structure BookingOutcome where
  alert : Option (String × String)
  navigateOnOk : Bool
  refetchedSlots : Bool
  retriedInsert : Bool
deriving DecidableEq, Repr

/-- `handleBookAppointment` with the storage insert's outcome passed in as
`insertResult`.  `if (!user || !selectedSlot || !doctorId) return;` is the
first match row; on an insert error the catch block raises
`Alert.alert('Booking Failed', error.message || 'Failed to book
appointment')` and does nothing else — in particular it neither calls
`fetchAvailableSlots` again nor retries the insert. -/
def handleBookAppointment (user : Option String)
    (selectedSlot : Option TimeSlot) (doctorId : Option String)
    (insertResult : Except String Unit) : BookingOutcome :=
  match user, selectedSlot, doctorId with
  | some _, some _, some _ =>
    match insertResult with
    | .ok _ =>
      { alert := some ("Booking Confirmed",
          "Your appointment has been booked successfully!"),
        navigateOnOk := true, refetchedSlots := false, retriedInsert := false }
    | .error msg =>
      { alert := some ("Booking Failed",
          if msg = "" then "Failed to book appointment" else msg),
        navigateOnOk := false, refetchedSlots := false, retriedInsert := false }
  | _, _, _ =>
    { alert := none, navigateOnOk := false, refetchedSlots := false,
      retriedInsert := false }

/-- `handleAdd` of `AddAvailabilityModal`: the time-of-day validation.
`start` and `end` are the picked times in minutes
(`startHour * 60 + startMinute`, `endHour * 60 + endMinute`; `stop`
stands for the source's `end`, a Lean keyword).  `if (start >= end)` the
modal alerts `'Invalid Time'` and returns without calling `onAdd`;
otherwise `onAdd(startTime, endTime, slotDuration)` is invoked — returned
here as the add request `(start, end, slotDuration)`. -/
def handleAdd (startHour startMinute endHour endMinute slotDurationMin : Nat) :
    Option (Nat × Nat × Nat) :=
  let start := startHour * 60 + startMinute
  let stop := endHour * 60 + endMinute
  if start ≥ stop then none
  else some (start, stop, slotDurationMin)

/-- Fixture: window 09:00–10:00, 30-minute slots. -/
def winMorning : Availability := ⟨540, 600, some 30⟩

/-- Fixture: window 10:00–11:00, 30-minute slots. -/
def winLate : Availability := ⟨600, 660, some 30⟩

/-- Fixture: window 09:00–09:30, 30-minute slots. -/
def winEarly : Availability := ⟨540, 570, some 30⟩

/-- Fixture: degenerate window 09:00–09:20 with 30-minute slots. -/
def winShort : Availability := ⟨540, 560, some 30⟩

/-- Fixture: a cancelled reservation on day 5, 09:30–10:00. -/
def resCancelled : Reservation := ⟨5, 570, 600, .cancelled⟩

theorem effDuration_pos (d : Option Nat) : 0 < effDuration d := by
  rcases d with _ | _ | n <;> simp [effDuration]

/-- Closed form of the window walk: for a positive duration the loop
emits exactly the slots `mkSlot … i` for `i < (stop - cursor) / D`. -/
theorem genSlots_eq_map (D : Nat) (bk : List Reservation) (date now : Nat)
    (hD : 0 < D) (cursor stop : Nat) :
    genSlots D bk date now cursor stop =
      (List.range ((stop - cursor) / D)).map (mkSlot D bk date now cursor) := by
  have main : ∀ n cursor, stop - cursor ≤ n →
      genSlots D bk date now cursor stop =
        (List.range ((stop - cursor) / D)).map (mkSlot D bk date now cursor) := by
    intro n
    induction n with
    | zero =>
      intro c hc
      rw [genSlots]
      have hns : ¬ (c < stop ∧ 0 < D) := by omega
      rw [dif_neg hns]
      have h0 : stop - c = 0 := by omega
      rw [h0]
      simp
    | succ n ih =>
      intro c hc
      rw [genSlots]
      by_cases hlt : c < stop ∧ 0 < D
      · rw [dif_pos hlt]
        simp only []
        by_cases hfit : c + D ≤ stop
        · rw [if_pos hfit]
          rw [ih (c + D) (by omega)]
          have hdiv : (stop - c) / D = (stop - (c + D)) / D + 1 := by
            have hsub : stop - c - D = stop - (c + D) := by omega
            rw [Nat.div_eq (stop - c) D, if_pos ⟨hD, by omega⟩, hsub]
          have hshift : ∀ i, mkSlot D bk date now (c + D) i =
              mkSlot D bk date now c (i + 1) := by
            intro i
            simp only [mkSlot]
            have h1 : c + D + i * D = c + (i + 1) * D := by ring
            rw [h1]
          have hhead :
              ({ start_time := c, end_time := c + D,
                 available := !isBookedSlot bk c (c + D) &&
                   !isPastSlot date c now } : TimeSlot) =
                mkSlot D bk date now c 0 := by
            simp [mkSlot]
          rw [hdiv, List.range_succ_eq_map, List.map_cons, List.map_map,
            List.singleton_append, hhead]
          congr 1
          apply List.map_congr_left
          intro i _
          exact hshift i
        · rw [if_neg hfit]
          rw [ih (c + D) (by omega)]
          have h0 : (stop - (c + D)) / D = 0 := by
            have h00 : stop - (c + D) = 0 := by omega
            simp [h00]
          have h1 : (stop - c) / D = 0 := by
            apply Nat.div_eq_of_lt
            omega
          rw [h0, h1]
          simp
      · rw [dif_neg hlt]
        have h0 : stop - c = 0 := by omega
        rw [h0]
        simp
  exact main (stop - cursor) cursor le_rfl

theorem genSlots_length (D : Nat) (bk : List Reservation) (date now : Nat)
    (hD : 0 < D) (cursor stop : Nat) :
    (genSlots D bk date now cursor stop).length = (stop - cursor) / D := by
  rw [genSlots_eq_map D bk date now hD]
  simp

theorem mem_genSlots (D : Nat) (bk : List Reservation) (date now : Nat)
    (hD : 0 < D) (cursor stop : Nat) (s : TimeSlot) :
    s ∈ genSlots D bk date now cursor stop ↔
      ∃ i < (stop - cursor) / D, s = mkSlot D bk date now cursor i := by
  rw [genSlots_eq_map D bk date now hD]
  simp [eq_comm]

theorem genSlots_getD (D : Nat) (bk : List Reservation) (date now : Nat)
    (hD : 0 < D) (cursor stop i : Nat)
    (hi : i < (genSlots D bk date now cursor stop).length) :
    (genSlots D bk date now cursor stop).getD i default =
      mkSlot D bk date now cursor i := by
  rw [genSlots_eq_map D bk date now hD] at hi ⊢
  simp at hi
  rw [List.getD_eq_getElem _ _ (by simpa using hi)]
  simp

theorem mem_fetchAvailableSlots (avails : List Availability)
    (res : List Reservation) (date now : Nat) (s : TimeSlot) :
    s ∈ fetchAvailableSlots avails res date now ↔
      ∃ a ∈ avails, s ∈ windowSlots (bookedSlotsOn res date) date now a := by
  simp [fetchAvailableSlots]

/-- Every emitted slot's availability flag is exactly
`!isBooked && !isPast` evaluated at its own boundaries. -/
theorem available_of_mem (avails : List Availability) (res : List Reservation)
    (date now : Nat) (s : TimeSlot)
    (hs : s ∈ fetchAvailableSlots avails res date now) :
    s.available = (!isBookedSlot (bookedSlotsOn res date) s.start_time s.end_time &&
      !isPastSlot date s.start_time now) := by
  rw [mem_fetchAvailableSlots] at hs
  obtain ⟨a, ha, hw⟩ := hs
  rw [windowSlots, mem_genSlots _ _ _ _ (effDuration_pos _)] at hw
  obtain ⟨i, hi, rfl⟩ := hw
  rfl

theorem blocking_eq_true_iff (st : ApptStatus) :
    blocking st = true ↔ (st = .scheduled ∨ st = .confirmed) := by
  cases st <;> simp [blocking]

theorem isBookedSlot_eq_true_iff (res : List Reservation) (date s e : Nat) :
    isBookedSlot (bookedSlotsOn res date) s e = true ↔
      ∃ r ∈ res, r.appointment_date = date ∧
        (r.status = .scheduled ∨ r.status = .confirmed) ∧
        r.start_time = s ∧ r.end_time = e := by
  simp [isBookedSlot, bookedSlotsOn, List.any_eq_true, List.mem_filter,
    blocking_eq_true_iff, and_assoc]


/-- C1: for a window with span `S = end_time - start_time` and effective
duration `D`, the generator emits exactly `S / D` slots; the `i`-th slot
starts at `start_time + i * D` and is exactly `D` minutes long;
consecutive slots are contiguous; and the last slot ends at
`start_time + D * (S / D) ≤ end_time` (a trailing remainder shorter than
`D` is dropped, never emitted). -/
theorem generateSlots_tiling (a : Availability) (bk : List Reservation)
    (date now : Nat) :
    (windowSlots bk date now a).length =
        (a.end_time - a.start_time) / effDuration a.slot_duration ∧
      (∀ i, i < (windowSlots bk date now a).length →
        ((windowSlots bk date now a).getD i default).start_time =
            a.start_time + i * effDuration a.slot_duration ∧
          ((windowSlots bk date now a).getD i default).end_time =
            ((windowSlots bk date now a).getD i default).start_time +
              effDuration a.slot_duration) ∧
      (∀ i, i + 1 < (windowSlots bk date now a).length →
        ((windowSlots bk date now a).getD i default).end_time =
          ((windowSlots bk date now a).getD (i + 1) default).start_time) ∧
      (0 < (windowSlots bk date now a).length →
        ((windowSlots bk date now a).getD
              ((windowSlots bk date now a).length - 1) default).end_time =
            a.start_time + effDuration a.slot_duration *
              ((a.end_time - a.start_time) / effDuration a.slot_duration) ∧
          a.start_time + effDuration a.slot_duration *
              ((a.end_time - a.start_time) / effDuration a.slot_duration) ≤
            a.end_time) := by
  have hD := effDuration_pos a.slot_duration
  have hlen : (windowSlots bk date now a).length =
      (a.end_time - a.start_time) / effDuration a.slot_duration := by
    rw [windowSlots]
    exact genSlots_length _ _ _ _ hD _ _
  have hget : ∀ i, i < (windowSlots bk date now a).length →
      (windowSlots bk date now a).getD i default =
        mkSlot (effDuration a.slot_duration) bk date now a.start_time i := by
    intro i hi
    rw [windowSlots] at hi ⊢
    exact genSlots_getD _ _ _ _ hD _ _ _ hi
  refine ⟨hlen, ?_, ?_, ?_⟩
  · intro i hi
    rw [hget i hi]
    exact ⟨rfl, rfl⟩
  · intro i hi
    rw [hget i (by omega), hget (i + 1) hi]
    simp only [mkSlot]
    ring
  · intro hpos
    have hlast := hget ((windowSlots bk date now a).length - 1) (by omega)
    rw [hlast, hlen]
    set D := effDuration a.slot_duration with hDdef
    set S := a.end_time - a.start_time with hSdef
    have hq : 0 < S / D := by
      rw [hlen] at hpos
      exact hpos
    constructor
    · simp only [mkSlot]
      have : (S / D - 1) * D + D = D * (S / D) := by
        have h1 : 1 ≤ S / D := hq
        calc (S / D - 1) * D + D = (S / D - 1 + 1) * D := by ring
        _ = (S / D) * D := by rw [Nat.sub_add_cancel h1]
        _ = D * (S / D) := by ring
      omega
    · have hmul : D * (S / D) ≤ S := by
        calc D * (S / D) = (S / D) * D := by ring
        _ ≤ S := Nat.div_mul_le_self S D
      have hDS : D ≤ S := by
        by_contra hcon
        have : S / D = 0 := Nat.div_eq_of_lt (by omega)
        omega
      have hse : a.start_time < a.end_time := by
        by_contra hcon
        have : S = 0 := by omega
        omega
      omega


/-- C1 witness: window 09:00-10:00 with 30-minute slots — two slots, the
first starting at 09:00, the last ending at 09:00 + 30 * 2. -/
theorem generateSlots_tiling_witness :
    0 < (windowSlots [] 0 0 winMorning).length ∧
      ((windowSlots [] 0 0 winMorning).getD 0 default).start_time =
        winMorning.start_time + 0 * effDuration winMorning.slot_duration ∧
      ((windowSlots [] 0 0 winMorning).getD
            ((windowSlots [] 0 0 winMorning).length - 1) default).end_time =
        winMorning.start_time + effDuration winMorning.slot_duration *
          ((winMorning.end_time - winMorning.start_time) /
            effDuration winMorning.slot_duration) := by
  have h := generateSlots_tiling winMorning [] 0 0
  have hpos : 0 < (windowSlots [] 0 0 winMorning).length := by
    rw [h.1]
    decide
  exact ⟨hpos, (h.2.1 0 hpos).1, (h.2.2.2 hpos).1⟩

/-- C5: the slot computation depends on nothing but its four inputs — the
clock readings of the source (`new Date()` in `parseTime` and in the
past check) are the injected `now` — so two runs on equal inputs return
equal slot lists. -/
theorem generateSlots_deterministic (w1 w2 : List Availability)
    (r1 r2 : List Reservation) (d1 d2 n1 n2 : Nat)
    (hw : w1 = w2) (hr : r1 = r2) (hd : d1 = d2) (hn : n1 = n2) :
    fetchAvailableSlots w1 r1 d1 n1 = fetchAvailableSlots w2 r2 d2 n2 := by
  subst hw
  subst hr
  subst hd
  subst hn
  rfl

/-- C5 witness: two runs on the same concrete inputs agree. -/
theorem generateSlots_deterministic_witness :
    fetchAvailableSlots [winMorning] [resCancelled] 5 0 =
      fetchAvailableSlots [winMorning] [resCancelled] 5 0 :=
  generateSlots_deterministic [winMorning] [winMorning] [resCancelled]
    [resCancelled] 5 5 0 0 rfl rfl rfl rfl

/-- C6: a window whose effective duration exceeds its span yields zero
slots (the embedded loop is total, so no error is possible). -/
theorem generateSlots_degenerate_window (a : Availability)
    (bk : List Reservation) (date now : Nat)
    (hdeg : a.end_time - a.start_time < effDuration a.slot_duration) :
    windowSlots bk date now a = [] := by
  have hD := effDuration_pos a.slot_duration
  have hlen := genSlots_length (effDuration a.slot_duration) bk date now hD
    a.start_time a.end_time
  rw [windowSlots]
  rw [Nat.div_eq_of_lt hdeg] at hlen
  exact List.length_eq_zero.mp hlen

/-- C6 witness: the 20-minute window 09:00-09:20 with 30-minute slots
yields no slot. -/
theorem generateSlots_degenerate_window_witness :
    winShort.end_time - winShort.start_time <
        effDuration winShort.slot_duration ∧
      windowSlots [] 0 0 winShort = [] :=
  ⟨by decide, generateSlots_degenerate_window winShort [] 0 0 (by decide)⟩

/-- C7: with no availability window for the day the computation returns
the empty list — a normal value, not an error. -/
theorem generateSlots_empty_windows (res : List Reservation)
    (date now : Nat) : fetchAvailableSlots [] res date now = [] := rfl


/-- C2: an emitted slot is available exactly when no reservation of the
target date with status scheduled or confirmed matches its boundaries
exactly and the slot is not in the past; in particular a cancelled (or
completed or no-show) reservation with identical boundaries does not make
it unavailable. -/
theorem generateSlots_blocking_exactness (avails : List Availability)
    (res : List Reservation) (date now : Nat) (s : TimeSlot)
    (hs : s ∈ fetchAvailableSlots avails res date now) :
    s.available = true ↔
      ((¬ ∃ r ∈ res, r.appointment_date = date ∧
          (r.status = .scheduled ∨ r.status = .confirmed) ∧
          r.start_time = s.start_time ∧ r.end_time = s.end_time) ∧
        ¬ slotInstant date s.start_time < now) := by
  rw [available_of_mem avails res date now s hs]
  simp only [Bool.and_eq_true, Bool.not_eq_true']
  rw [← Bool.not_eq_true, isBookedSlot_eq_true_iff]
  simp [isPastSlot]

/-- C2 witness: a cancelled reservation with boundaries identical to the
09:30-10:00 slot leaves that slot available. -/
theorem generateSlots_blocking_exactness_witness :
    (⟨570, 600, true⟩ : TimeSlot).available = true ↔
      ((¬ ∃ r ∈ [resCancelled], r.appointment_date = 5 ∧
          (r.status = .scheduled ∨ r.status = .confirmed) ∧
          r.start_time = (⟨570, 600, true⟩ : TimeSlot).start_time ∧
          r.end_time = (⟨570, 600, true⟩ : TimeSlot).end_time) ∧
        ¬ slotInstant 5 (⟨570, 600, true⟩ : TimeSlot).start_time < 0) :=
  generateSlots_blocking_exactness [winMorning] [resCancelled] 5 0 _
    (by simp [fetchAvailableSlots, windowSlots, genSlots, winMorning,
      resCancelled, bookedSlotsOn, blocking, effDuration, isBookedSlot,
      isPastSlot, slotInstant, msPerDay, msPerMinute])

/-- C3: a slot whose start instant is strictly before `now` is marked
unavailable whatever the reservations are; and when the target date lies
strictly in the future of `now`, the past check never fires on any
emitted slot. -/
theorem generateSlots_past_exclusion (avails : List Availability)
    (res : List Reservation) (date now : Nat) (s : TimeSlot)
    (hs : s ∈ fetchAvailableSlots avails res date now) :
    (slotInstant date s.start_time < now → s.available = false) ∧
      (now < date * msPerDay → isPastSlot date s.start_time now = false) := by
  constructor
  · intro hpast
    rw [available_of_mem avails res date now s hs]
    have hp : isPastSlot date s.start_time now = true := by
      simp [isPastSlot, hpast]
    rw [hp]
    simp
  · intro hfut
    simp only [isPastSlot, slotInstant, decide_eq_false_iff_not]
    simp only [msPerDay, msPerMinute] at hfut ⊢
    omega

/-- C3 witness: on day 0 with `now` one millisecond past 09:00 the 09:00
slot is unavailable; on the future day 1 with `now = 0` the past check is
off for the 09:00 slot. -/
theorem generateSlots_past_exclusion_witness :
    (⟨540, 570, false⟩ : TimeSlot).available = false ∧
      isPastSlot 1 (⟨540, 570, true⟩ : TimeSlot).start_time 0 = false := by
  constructor
  · exact (generateSlots_past_exclusion [winMorning] [] 0 32400001
      ⟨540, 570, false⟩
      (by simp [fetchAvailableSlots, windowSlots, genSlots, winMorning,
        bookedSlotsOn, effDuration, isBookedSlot, isPastSlot, slotInstant,
        msPerDay, msPerMinute])).1
      (by norm_num [slotInstant, msPerDay, msPerMinute])
  · exact (generateSlots_past_exclusion [winMorning] [] 1 0
      ⟨540, 570, true⟩
      (by simp [fetchAvailableSlots, windowSlots, genSlots, winMorning,
        bookedSlotsOn, effDuration, isBookedSlot, isPastSlot, slotInstant,
        msPerDay, msPerMinute])).2
      (by norm_num [msPerDay])


theorem mem_windowSlots_bounds (bk : List Reservation) (date now : Nat)
    (a : Availability) (s : TimeSlot) (hs : s ∈ windowSlots bk date now a) :
    a.start_time ≤ s.start_time ∧ s.end_time ≤ a.end_time ∧
      s.start_time < s.end_time := by
  have hD := effDuration_pos a.slot_duration
  rw [windowSlots, mem_genSlots _ _ _ _ hD] at hs
  obtain ⟨i, hi, rfl⟩ := hs
  simp only [mkSlot]
  refine ⟨Nat.le_add_right _ _, ?_, by omega⟩
  have h1 : i + 1 ≤ (a.end_time - a.start_time) / effDuration a.slot_duration :=
    hi
  have h2 : (i + 1) * effDuration a.slot_duration ≤
      ((a.end_time - a.start_time) / effDuration a.slot_duration) *
        effDuration a.slot_duration :=
    Nat.mul_le_mul_right _ h1
  have h3 : ((a.end_time - a.start_time) / effDuration a.slot_duration) *
      effDuration a.slot_duration ≤ a.end_time - a.start_time :=
    Nat.div_mul_le_self _ _
  have h4 : (i + 1) * effDuration a.slot_duration =
      i * effDuration a.slot_duration + effDuration a.slot_duration := by
    ring
  omega

theorem windowSlots_sorted (bk : List Reservation) (date now : Nat)
    (a : Availability) : sortedByStart (windowSlots bk date now a) := by
  rw [sortedByStart, windowSlots,
    genSlots_eq_map _ _ _ _ (effDuration_pos a.slot_duration),
    List.pairwise_map]
  apply List.Pairwise.imp ?_
    (List.pairwise_lt_range ((a.end_time - a.start_time) /
      effDuration a.slot_duration))
  intro i j hij
  simp only [mkSlot]
  have := Nat.mul_le_mul_right (effDuration a.slot_duration)
    (Nat.le_of_lt hij)
  omega

/-- C4 counterexample: two windows arriving late-first (10:00-11:00 then
09:00-09:30) produce a slot list that is not ascending across windows. -/
theorem generateSlots_not_globally_sorted :
    ¬ sortedByStart (fetchAvailableSlots [winLate, winEarly] [] 0 0) := by
  simp [sortedByStart, fetchAvailableSlots, windowSlots, genSlots, winLate,
    winEarly, bookedSlotsOn, effDuration, isBookedSlot, isPastSlot,
    slotInstant, msPerDay, msPerMinute, List.pairwise_cons]

/-- C4 (amended): slots are ascending within each window, and the
combined list is ascending whenever the windows arrive in ascending
order without overlap (each window ending no later than the next one
starts); the code itself never reorders across windows. -/
theorem generateSlots_sorted_of_separated (avails : List Availability)
    (res : List Reservation) (date now : Nat)
    (hsep : avails.Pairwise fun a b => a.end_time ≤ b.start_time) :
    sortedByStart (fetchAvailableSlots avails res date now) := by
  rw [sortedByStart, fetchAvailableSlots, List.pairwise_flatten]
  constructor
  · intro l hl
    rw [List.mem_map] at hl
    obtain ⟨a, ha, rfl⟩ := hl
    exact windowSlots_sorted _ _ _ _
  · rw [List.pairwise_map]
    apply List.Pairwise.imp ?_ hsep
    intro a b hab s hs t ht
    have h1 := mem_windowSlots_bounds _ _ _ _ _ hs
    have h2 := mem_windowSlots_bounds _ _ _ _ _ ht
    omega

/-- C4 witness: the same two windows supplied early-first give an
ascending combined list. -/
theorem generateSlots_sorted_of_separated_witness :
    sortedByStart (fetchAvailableSlots [winEarly, winLate] [] 0 0) :=
  generateSlots_sorted_of_separated [winEarly, winLate] [] 0 0
    (by simp [winEarly, winLate, List.pairwise_cons])


/-- C8 counterexample: on a conflict error the handler raises a
recoverable alert and does not retry, but it does not re-fetch the slot
list, so the claimed re-fetch is absent. -/
theorem handleBookAppointment_no_refetch :
    ¬ ((handleBookAppointment (some "patient") (some ⟨540, 570, true⟩)
          (some "doctor")
          (.error "duplicate key value violates unique constraint")).alert ≠
        none ∧
      (handleBookAppointment (some "patient") (some ⟨540, 570, true⟩)
          (some "doctor")
          (.error "duplicate key value violates unique constraint")).refetchedSlots =
        true ∧
      (handleBookAppointment (some "patient") (some ⟨540, 570, true⟩)
          (some "doctor")
          (.error "duplicate key value violates unique constraint")).retriedInsert =
        false) := by
  simp [handleBookAppointment]

/-- C8 (amended): a failed insert is surfaced as a recoverable
`Booking Failed` alert (never an uncaught crash), the same slot is not
silently retried, and no navigation happens; but the handler does not
re-fetch the slots — they are only re-fetched when the selected date or
doctor changes. -/
theorem handleBookAppointment_conflict_recoverable (u : String) (s : TimeSlot)
    (d : String) (msg : String) :
    (handleBookAppointment (some u) (some s) (some d) (.error msg)).alert =
        some ("Booking Failed",
          if msg = "" then "Failed to book appointment" else msg) ∧
      (handleBookAppointment (some u) (some s) (some d)
          (.error msg)).retriedInsert = false ∧
      (handleBookAppointment (some u) (some s) (some d)
          (.error msg)).refetchedSlots = false ∧
      (handleBookAppointment (some u) (some s) (some d)
          (.error msg)).navigateOnOk = false :=
  ⟨rfl, rfl, rfl, rfl⟩

/-- C9: the availability modal rejects a start time at or after the end
time (no add request is issued), and every add request it issues has
`start < end`. -/
theorem handleAdd_validates (sh sm eh em d : Nat) :
    (sh * 60 + sm ≥ eh * 60 + em → handleAdd sh sm eh em d = none) ∧
      (∀ w, handleAdd sh sm eh em d = some w → w.1 < w.2.1) := by
  constructor
  · intro h
    simp [handleAdd, h]
  · intro w hw
    by_cases h : sh * 60 + sm ≥ eh * 60 + em
    · simp [handleAdd, h] at hw
    · simp only [handleAdd, if_neg h] at hw
      obtain rfl := (Option.some.inj hw).symm
      simpa using Nat.lt_of_not_le h

/-- C9 witness: 10:00-09:00 is rejected; 09:00-17:00 is accepted with
`540 < 1020`. -/
theorem handleAdd_validates_witness :
    handleAdd 10 0 9 0 30 = none ∧ (540 : Nat) < 1020 := by
  refine ⟨(handleAdd_validates 10 0 9 0 30).1 (by norm_num), ?_⟩
  exact (handleAdd_validates 9 0 17 0 30).2 (540, 1020, 30) (by decide)

/-- C10 counterexample: the window 09:00-10:00 with 45-minute slots runs
the loop twice, exceeding `floor(span / duration) = 1`. -/
theorem slotLoop_iterations_exceed_floor :
    ¬ genIters 45 540 600 ≤ (600 - 540) / 45 := by
  simp [genIters]

/-- C10 (amended): for a positive duration the loop is total, the cursor
gaining `D` each iteration, and it runs at most
`floor(span / duration) + 1` times (the span divided by the duration,
rounded up). -/
theorem slotLoop_iterations_bound (D cursor stop : Nat) (hD : 0 < D) :
    genIters D cursor stop ≤ (stop - cursor) / D + 1 := by
  have main : ∀ n cursor, stop - cursor ≤ n →
      genIters D cursor stop ≤ (stop - cursor) / D + 1 := by
    intro n
    induction n with
    | zero =>
      intro c hc
      rw [genIters]
      have hns : ¬ (c < stop ∧ 0 < D) := by omega
      rw [dif_neg hns]
      exact Nat.zero_le _
    | succ n ih =>
      intro c hc
      rw [genIters]
      by_cases hlt : c < stop ∧ 0 < D
      · rw [dif_pos hlt]
        by_cases hfit : c + D ≤ stop
        · have hrec := ih (c + D) (by omega)
          have hdiv : (stop - c) / D = (stop - (c + D)) / D + 1 := by
            have hsub : stop - c - D = stop - (c + D) := by omega
            rw [Nat.div_eq (stop - c) D, if_pos ⟨hD, by omega⟩, hsub]
          rw [hdiv]
          exact Nat.add_le_add_right hrec 1
        · have hz : genIters D (c + D) stop = 0 := by
            rw [genIters]
            exact dif_neg (by omega)
          rw [hz]
          exact Nat.succ_le_succ (Nat.zero_le _)
      · rw [dif_neg hlt]
        exact Nat.zero_le _
  exact main (stop - cursor) cursor le_rfl

/-- C10 witness: 09:00-10:00 with 30-minute slots iterates at most
`60 / 30 + 1` times. -/
theorem slotLoop_iterations_bound_witness :
    (0 : Nat) < 30 ∧ genIters 30 540 600 ≤ (600 - 540) / 30 + 1 :=
  ⟨by norm_num, slotLoop_iterations_bound 30 540 600 (by norm_num)⟩

end Health
